import Mathlib

/-!
Verification of the SJBOT publishing pipeline, dedup ledger, ranker and
hourly scheduler, as a shallow embedding of the Python sources.

Conventions of the embedding:
* timestamps are seconds (integers); `posted_at` column values in the
  SQLite ledger are ISO-8601 strings in a single timezone, whose
  lexicographic order agrees with instant order, so `posted_at >= since`
  is modelled as integer `≤`;
* Python float arithmetic is modelled exactly over `ℚ`;
* randomness (`random.sample`, `random.randint`) is modelled by passing the
  drawn values as arguments, constrained by the hypotheses that the Python
  APIs guarantee;
* fallible Python code (an `except` that skips a record) is modelled with
  `Option`.
-/

namespace SJBot

/-- The `Offer` dataclass of `aliexpress_client.py`. -/
structure Offer where
  product_id : String
  title : String
  old_price : ℚ
  price : ℚ
  discount_pct : ℚ
  coupon : Option String
  free_shipping : Bool
  sales_count : ℤ
  rating : ℚ
  image_url : String
  product_url : String
  category : String
deriving DecidableEq

/-- A row of the `posts` table of `db.py` (the autoincrement `id` column is
not modelled: no query of the code reads it). -/
structure PostRecord where
  product_id : String
  posted_at : ℤ
  price : ℚ
  coupon : Option String
deriving DecidableEq

/-- Python truthiness of an optional string (`None` and `""` are falsy). -/
def pyTruthyStr : Option String → Bool
  | none => false
  | some s => !(s == "")

/-- `Database.record_post` of `db.py`: `INSERT OR IGNORE` into `posts`,
whose `UNIQUE(product_id, posted_at)` constraint silently drops a row whose
key pair already exists.  The stored coupon is `coupon or None`, which maps
a falsy coupon (`None` or `""`) to `NULL`. -/
def record_post (l : List PostRecord) (pid : String) (t : ℤ) (price : ℚ)
    (coupon : Option String) : List PostRecord :=
  if l.any (fun r => r.product_id == pid && r.posted_at == t) then l
  else l ++ [⟨pid, t, price, if pyTruthyStr coupon then coupon else none⟩]

/-- `Database.posted_within` of `db.py`: `SELECT 1 FROM posts WHERE
product_id=? AND posted_at>=? LIMIT 1` is non-empty. -/
def posted_within (l : List PostRecord) (pid : String) (since : ℤ) : Bool :=
  l.any (fun r => r.product_id == pid && decide (since ≤ r.posted_at))

/-- Observable outcome of one `BotCore.post_offer` call: returned boolean,
resulting ledger, and how many photo / text transport calls were made. -/
structure PostResult where
  ok : Bool
  ledger : List PostRecord
  photoAttempts : Nat
  textAttempts : Nat
deriving DecidableEq

/-- `BotCore.post_offer` of `bot_core.py`.  `sendEnabled` is
`self.send_enabled`; `photoOk` (resp. `textOk`) tells whether the
`send_photo` (resp. `send_message`) transport call would succeed.  The code
first checks the 48-hour dedup window, then — when sending is enabled —
always calls `send_photo` (there is no guard on `offer.image_url`), falls
back to `send_message` on failure, and records the post when any delivery
path worked or in dry-run mode. -/
def post_offer (ledger : List PostRecord) (now : ℤ) (offer : Offer)
    (sendEnabled photoOk textOk : Bool) : PostResult :=
  let since := now - 48 * 3600
  if posted_within ledger offer.product_id since then
    ⟨false, ledger, 0, 0⟩
  else if sendEnabled then
    if photoOk then
      ⟨true, record_post ledger offer.product_id now offer.price offer.coupon, 1, 0⟩
    else if textOk then
      ⟨true, record_post ledger offer.product_id now offer.price offer.coupon, 1, 1⟩
    else
      ⟨false, ledger, 1, 1⟩
  else
    ⟨true, record_post ledger offer.product_id now offer.price offer.coupon, 0, 0⟩

/-- The state touched by `PostingScheduler._post_one` of `scheduler.py`:
the in-process `consecutive_failures` counter, the durable `paused` state
key (a string, `"0"`/`"1"`), and how many operator notifications
(`notify_admins` calls) have been emitted. -/
structure SchedState where
  consecutive_failures : Nat
  paused : String
  notifications : Nat
deriving DecidableEq

/-- `PostingScheduler._post_one` of `scheduler.py`, with the outcome of the
offer loop abstracted into `posted` (whether some offer was successfully
posted in this attempt).  If the durable `paused` key is `"1"` the attempt
is a no-op; a successful attempt resets the failure counter; an
unsuccessful one increments it, and on reaching the threshold 5 the
breaker sets `paused` to `"1"` and notifies the admins. -/
def post_one (s : SchedState) (posted : Bool) : SchedState :=
  if s.paused == "1" then s
  else if posted then { s with consecutive_failures := 0 }
  else
    let c := s.consecutive_failures + 1
    if 5 ≤ c then ⟨c, "1", s.notifications + 1⟩
    else { s with consecutive_failures := c }

/-- The `/retomar` handler of `bot_core.py`: it only writes the state key
`paused` back to `"0"`; the scheduler's counter is untouched. -/
def resume (s : SchedState) : SchedState := { s with paused := "0" }

/-- The `/pausar` handler of `bot_core.py`: sets the state key `paused`
to `"1"`. -/
def pause (s : SchedState) : SchedState := { s with paused := "1" }

/-- `PostingScheduler._in_window` of `scheduler.py`:
`8 <= now.hour < 22`. -/
def in_window (h : Nat) : Bool := decide (8 ≤ h) && decide (h < 22)

/-- `now.hour` for a wall-clock instant given as local seconds. -/
def now_hour (now : Nat) : Nat := now % 86400 / 3600

/-- Start hour of the active window displayed by the `/status` handler of
`bot_core.py`, whose reply contains the literal line
`"Janela: 06:00-22:00 <tz>"`. -/
def statusWindowStartHour : Nat := 6

/-- End hour of the displayed window of the `/status` reply. -/
def statusWindowEndHour : Nat := 22

/-- The window line of the `/status` reply of `bot_core.py`. -/
def statusWindowLine (tzKey : String) : String :=
  "Janela: 06:00-22:00 " ++ tzKey

/-- `PostingScheduler._get_hourly_bounds` of `scheduler.py` (after the
string state values have been read and parsed): `if mx < mn: mx = mn`. -/
def get_hourly_bounds (mn mx : Nat) : Nat × Nat :=
  if mx < mn then (mn, mn) else (mn, mx)

/-- `PostingScheduler._random_times_within_hour` of `scheduler.py`.
`sample` stands for `random.sample(range(0, 3600), k=min(n, 3600))` (a
list of distinct seconds below 3600); the code sorts it, turns each offset
into `start + s` where `start` is `now` floored to the hour, and keeps
only instants `t` with `now <= t < start + 3600`. -/
def random_times_within_hour (now : Nat) (sample : List Nat) : List Nat :=
  let start := now - now % 3600
  ((List.insertionSort (fun a b => a ≤ b) sample).map (fun s => start + s)).filter
    (fun t => decide (now ≤ t) && decide (t < start + 3600))

/-- `PostingScheduler._plan_next_hour` of `scheduler.py`: skip when the
`paused` state key is `"1"` or the local hour is outside the window;
otherwise schedule the surviving offsets.  `n` stands for
`random.randint(mn, mx)` on the clamped bounds and `sample` for the drawn
second-offsets. -/
def plan_next_hour (paused : String) (now : Nat) (sample : List Nat) :
    Option (List Nat) :=
  if paused == "1" then none
  else if !(in_window (now_hour now)) then none
  else some (random_times_within_hour now sample)

/-! ## Catalog responses and their defensive normalization
(`AliExpressClient.fetch_top_offers` / `_api_product_query`). -/

/-- A JSON-ish Python value as found in a raw catalog record; `null` also
stands for an absent key (`dict.get` returns `None`). -/
inductive JVal where
  | null
  | s (v : String)
  | n (v : ℚ)
  | b (v : Bool)
deriving DecidableEq

/-- Python falsiness: `None`, `""`, `0` and `False` are falsy. -/
def JVal.falsy : JVal → Bool
  | .null => true
  | .s v => v == ""
  | .n v => v == 0
  | .b v => !v

/-- Python `a or b`. -/
def jOr (a b : JVal) : JVal := if a.falsy then b else a

/-- `str()` of a rational (integers print without a denominator).  Python
prints floats in its own shortest-repr format; integral values are the
only numeric strings the claims exercise. -/
def ratStr (q : ℚ) : String := if q.den = 1 then toString q.num else toString q

/-- Python `str(v)`. -/
def JVal.pyStr : JVal → String
  | .null => "None"
  | .s v => v
  | .n v => ratStr v
  | .b true => "True"
  | .b false => "False"

/-- The receiver of a string-method call such as `.replace`: a non-string
value raises `AttributeError` (caught by the per-record handler). -/
def JVal.asStrMethod : JVal → Option String
  | .s v => some v
  | _ => none

def isDigit (c : Char) : Bool := decide ('0' ≤ c) && decide (c ≤ '9')

def digitsToNat (cs : List Char) : Nat :=
  cs.foldl (fun a c => a * 10 + (c.toNat - 48)) 0

/-- Optional exponent suffix of a Python float literal (`e`/`E`, optional
sign, digits); anything else after the mantissa is a parse error. -/
def parseExpPart (base : ℚ) (cs : List Char) : Option ℚ :=
  match cs with
  | [] => some base
  | c :: rest =>
    if c == 'e' || c == 'E' then
      let signAndRest : ℤ × List Char :=
        match rest with
        | '+' :: r => (1, r)
        | '-' :: r => (-1, r)
        | r => (1, r)
      let ds := signAndRest.2.takeWhile isDigit
      let tail := signAndRest.2.dropWhile isDigit
      if ds.isEmpty || !tail.isEmpty then none
      else some (base * (10 : ℚ) ^ (signAndRest.1 * (digitsToNat ds : ℤ)))
    else none

/-- Unsigned body of a Python float literal: digits, an optional `.` with
further digits (at least one digit overall), an optional exponent.
Whitespace, `inf`, `nan` and underscore separators are not modelled. -/
def parseBody (cs : List Char) : Option ℚ :=
  let intPart := cs.takeWhile isDigit
  let rest := cs.dropWhile isDigit
  match rest with
  | '.' :: rest2 =>
    let fracPart := rest2.takeWhile isDigit
    let rest3 := rest2.dropWhile isDigit
    if intPart.isEmpty && fracPart.isEmpty then none
    else
      parseExpPart
        ((digitsToNat intPart : ℚ) +
          (digitsToNat fracPart : ℚ) / (10 : ℚ) ^ fracPart.length) rest3
  | _ =>
    if intPart.isEmpty then none else parseExpPart (digitsToNat intPart : ℚ) rest

/-- Python `float(str)`; `none` models the `ValueError` that the
per-record `except` turns into a skip. -/
def parseFloat (str : String) : Option ℚ :=
  match str.toList with
  | '+' :: rest => parseBody rest
  | '-' :: rest => (parseBody rest).map (fun q => -q)
  | cs => parseBody cs

/-- Python `int(str)`: an optional sign followed by digits only. -/
def parseInt (str : String) : Option ℤ :=
  match str.toList with
  | '+' :: rest =>
    if !rest.isEmpty && rest.all isDigit then some (digitsToNat rest : ℤ) else none
  | '-' :: rest =>
    if !rest.isEmpty && rest.all isDigit then some (-(digitsToNat rest : ℤ)) else none
  | cs =>
    if !cs.isEmpty && cs.all isDigit then some (digitsToNat cs : ℤ) else none

/-- Truncation toward zero, as Python `int()` of a float. -/
def ratTrunc (q : ℚ) : ℤ := if q < 0 then -(⌊-q⌋) else ⌊q⌋

/-- Python `float(v)`. -/
def JVal.pyFloat : JVal → Option ℚ
  | .null => none
  | .s v => parseFloat v
  | .n v => some v
  | .b v => some (if v then 1 else 0)

/-- Python `int(v)`. -/
def JVal.pyInt : JVal → Option ℤ
  | .null => none
  | .s v => parseInt v
  | .n v => some (ratTrunc v)
  | .b v => some (if v then 1 else 0)

/-- Python `round(x, 2)` over exact rationals: round half to even at two
decimal places (ties behave as on exact decimal values; binary-float
representation error is not modelled). -/
def roundHalfEven (q : ℚ) : ℤ :=
  if q - ⌊q⌋ < 1 / 2 then ⌊q⌋
  else if 1 / 2 < q - ⌊q⌋ then ⌊q⌋ + 1
  else if ⌊q⌋ % 2 = 0 then ⌊q⌋ else ⌊q⌋ + 1

def round2 (q : ℚ) : ℚ := (roundHalfEven (q * 100) : ℚ) / 100

/-- A raw catalog record, restricted to the keys that
`AliExpressClient.fetch_top_offers` and `_api_product_query` read; an
absent key is `JVal.null`. -/
structure RawItem where
  product_id : JVal := .null
  item_id : JVal := .null
  app_sale_price_id : JVal := .null
  product_title : JVal := .null
  title : JVal := .null
  product_main_image_url : JVal := .null
  image_url : JVal := .null
  target_sale_price : JVal := .null
  sale_price : JVal := .null
  app_sale_price : JVal := .null
  target_original_price : JVal := .null
  original_price : JVal := .null
  app_original_price : JVal := .null
  coupon_activity_id : JVal := .null
  coupon_amount : JVal := .null
  free_shipping : JVal := .null
  product_sale_quantity : JVal := .null
  sale_count : JVal := .null
  evaluate_rate : JVal := .null
  product_average_star : JVal := .null
  first_level_category_name : JVal := .null
  category_name : JVal := .null
  product_detail_url : JVal := .null
  promotion_link : JVal := .null
  url : JVal := .null
deriving DecidableEq

/-- Python `str.lower` (character-wise; `str.lower` of the ASCII range —
the allow-list terms and the claims' examples contain no non-ASCII
uppercase letters). -/
def pyLower (s : String) : String := ⟨s.data.map Char.toLower⟩

/-- Replace every non-overlapping occurrence of `pat` left to right, with
explicit fuel so the recursion is structural. -/
def listReplaceAux (pat rep : List Char) : Nat → List Char → List Char
  | 0, s => s
  | _ + 1, [] => []
  | fuel + 1, c :: rest =>
    if pat.isPrefixOf (c :: rest) && !pat.isEmpty then
      rep ++ listReplaceAux pat rep fuel (List.drop (pat.length - 1) rest)
    else c :: listReplaceAux pat rep fuel rest

/-- Python `s.replace(pat, rep)` for non-empty `pat`. -/
def pyReplace (s pat rep : String) : String :=
  ⟨listReplaceAux pat.data rep.data s.data.length s.data⟩

/-- `needle` occurs as a contiguous run inside `hay`. -/
def listHasSub (needle : List Char) : List Char → Bool
  | [] => needle.isEmpty
  | c :: rest => needle.isPrefixOf (c :: rest) || listHasSub needle rest

/-- Python substring test `needle in hay`. -/
def containsSub (hay needle : String) : Bool :=
  listHasSub needle.toList hay.toList

/-- `str(it.get("product_id") or it.get("item_id") or it.get("app_sale_price_id") or "")`. -/
def normProductId (it : RawItem) : String :=
  (jOr (jOr (jOr it.product_id it.item_id) it.app_sale_price_id) (.s "")).pyStr

/-- `it.get("product_title") or it.get("title") or "Produto AliExpress"`
(coerced to a string for the typed `Offer`; the Python code stores the raw
value). -/
def normTitle (it : RawItem) : String :=
  (jOr (jOr it.product_title it.title) (.s "Produto AliExpress")).pyStr

/-- `(it.get("product_main_image_url") or it.get("image_url") or
"").replace("_640x640.jpg", "_Q90.jpg")`, then blanked unless it points at
an AliExpress CDN. -/
def normImage (it : RawItem) : Option String := do
  let raw ← (jOr (jOr it.product_main_image_url it.image_url) (.s "")).asStrMethod
  let img := pyReplace raw "_640x640.jpg" "_Q90.jpg"
  if !(img == "") && !(containsSub img "alicdn.com" || containsSub img "aliexpress") then
    pure ""
  else
    pure img

/-- `str(it.get("target_sale_price") or it.get("sale_price") or
it.get("app_sale_price") or "0").replace(",", ".")`. -/
def normPriceStr (it : RawItem) : String :=
  pyReplace ((jOr (jOr (jOr it.target_sale_price it.sale_price) it.app_sale_price)
    (.s "0")).pyStr) "," "."

/-- `str(it.get("target_original_price") or it.get("original_price") or
it.get("app_original_price") or price_str).replace(",", ".")`. -/
def normOldStr (it : RawItem) : String :=
  pyReplace ((jOr (jOr (jOr it.target_original_price it.original_price) it.app_original_price)
    (.s (normPriceStr it))).pyStr) "," "."

/-- `float(price_str) if price_str else 0.0`. -/
def normPrice (it : RawItem) : Option ℚ :=
  if !(normPriceStr it == "") then parseFloat (normPriceStr it) else some 0

/-- `float(old_str) if old_str else price`. -/
def normOldPrice (it : RawItem) : Option ℚ :=
  if !(normOldStr it == "") then parseFloat (normOldStr it) else normPrice it

/-- `max(0.0, round((1 - (price / old_price)) * 100, 2) if old_price else 0.0)`. -/
def normDiscount (price old_price : ℚ) : ℚ :=
  max 0 (if old_price ≠ 0 then round2 ((1 - price / old_price) * 100) else 0)

/-- `coupon = it.get("coupon_activity_id") or it.get("coupon_amount")`,
stored as `str(coupon) if coupon else None`. -/
def normCoupon (it : RawItem) : Option String :=
  let c := jOr it.coupon_activity_id it.coupon_amount
  if c.falsy then none else some c.pyStr

/-- `bool(it.get("free_shipping", False))`. -/
def normFreeShipping (it : RawItem) : Bool := !it.free_shipping.falsy

/-- `int(it.get("product_sale_quantity") or it.get("sale_count") or 0)`. -/
def normSales (it : RawItem) : Option ℤ :=
  (jOr (jOr it.product_sale_quantity it.sale_count) (.n 0)).pyInt

/-- The float literal `4.5` in normal form (`9/2`; kept reduced so that
kernel evaluation of concrete inputs never normalizes a fraction). -/
def fourPointFive : ℚ := ⟨9, 2, by norm_num, by norm_num⟩

/-- `float(it.get("evaluate_rate") or it.get("product_average_star") or 4.5)`. -/
def normRating (it : RawItem) : Option ℚ :=
  (jOr (jOr it.evaluate_rate it.product_average_star) (.n fourPointFive)).pyFloat

/-- `str(it.get("first_level_category_name") or it.get("category_name") or "eletronicos")`. -/
def normCategory (it : RawItem) : String :=
  (jOr (jOr it.first_level_category_name it.category_name) (.s "eletronicos")).pyStr

/-- `it.get("product_detail_url") or it.get("promotion_link") or
it.get("url") or ""`, replaced by a canonical item URL when falsy. -/
def normUrl (it : RawItem) : String :=
  let url0 := jOr (jOr (jOr it.product_detail_url it.promotion_link) it.url) (.s "")
  if url0.falsy then "https://www.aliexpress.com/item/" ++ normProductId it ++ ".html"
  else url0.pyStr

/-- The per-record normalization body of `AliExpressClient.fetch_top_offers`;
`none` models the per-record `except` that skips the record. -/
def normalizeItem (it : RawItem) : Option Offer := do
  let img ← normImage it
  let price ← normPrice it
  let old_price ← normOldPrice it
  let sales ← normSales it
  let rating ← normRating it
  pure
    { product_id := normProductId it
      title := normTitle it
      old_price := old_price
      price := price
      discount_pct := normDiscount price old_price
      coupon := normCoupon it
      free_shipping := normFreeShipping it
      sales_count := sales
      rating := rating
      image_url := img
      product_url := normUrl it
      category := normCategory it }

/-- The dedup key of `_api_product_query`:
`str(it.get("product_id") or it.get("item_id") or "")`. -/
def rawKey (it : RawItem) : String :=
  (jOr (jOr it.product_id it.item_id) (.s "")).pyStr

/-- The `seen`-set loop of `_api_product_query`: keep the first record for
each non-empty dedup key. -/
def dedupByPid (seen : List String) : List RawItem → List RawItem
  | [] => []
  | it :: rest =>
    let pid := rawKey it
    if !(pid == "") && !(seen.contains pid) then
      it :: dedupByPid (pid :: seen) rest
    else
      dedupByPid seen rest

/-- `AliExpressClient._api_product_query` after the per-keyword fetch loop:
`raw` is the accumulated `result_items`; the result is de-duplicated by
product id and capped at `limit`. -/
def api_product_query (raw : List RawItem) (limit : Nat) : List RawItem :=
  (dedupByPid [] raw).take limit

/-- The real-data path of `AliExpressClient.fetch_top_offers`: query
`max(50, limit * 2)` records, normalize each (skipping failures), cap at
`limit`.  The mock-data fallbacks (no credentials, API error, empty batch)
draw random synthetic offers and are outside this model. -/
def fetch_top_offers (raw : List RawItem) (limit : Nat) : List Offer :=
  let items := api_product_query raw (max 50 (limit * 2))
  let offers := items.filterMap normalizeItem
  offers.take limit

/-! ## Ranker (`AliExpressClient._score`, `_passes_category`, `best_scored`). -/

/-- The `ACCEPTED_CATEGORIES` allow-list of `aliexpress_client.py` (a
Python set; iteration order is irrelevant to the `any` below). -/
def ACCEPTED_CATEGORIES : List String :=
  ["electronics", "pc gamer", "acessórios gamer", "acessorios gamer",
   "gabinetes", "processadores", "placas de vídeo", "placas de video",
   "componentes de pc", "quarto", "decoração", "decoracao", "funko"]

/-- `AliExpressClient._score` of `aliexpress_client.py`, accumulator step
by step as in the source. -/
def score (o : Offer) : ℚ :=
  let s0 : ℚ := 0
  let s1 := s0 + o.discount_pct * 2
  let s2 := if pyTruthyStr o.coupon then s1 + 20 else s1
  let s3 := if o.free_shipping then s2 + 10 else s2
  let s4 := s3 + min ((o.sales_count : ℚ) / 50) 20
  s4 + o.rating

/-- `AliExpressClient._passes_category`: the lowercased
`f"{title} {category}"` contains some allow-listed term.  (`str.lower`
lowers the ASCII range here; the allow-list's non-ASCII characters are
already lowercase.) -/
def passes_category (o : Offer) : Bool :=
  let name := pyLower (o.title ++ " " ++ o.category)
  ACCEPTED_CATEGORIES.any (fun cat => containsSub name cat)

/-- The descending-score order used by
`offers.sort(key=self._score, reverse=True)`. -/
def scoreRel (a b : Offer) : Prop := score b ≤ score a

instance : DecidableRel scoreRel := fun a b =>
  inferInstanceAs (Decidable (score b ≤ score a))

instance : IsTotal Offer scoreRel := ⟨fun a b => le_total (score b) (score a)⟩

instance : IsTrans Offer scoreRel := ⟨fun _ _ _ h1 h2 => le_trans h2 h1⟩

/-- Python's `list.sort` is stable, also with `reverse=True`; a stable
descending sort is unique, so insertion sort with `scoreRel` computes the
same list. -/
def sortOffers (l : List Offer) : List Offer := List.insertionSort scoreRel l

/-- `AliExpressClient.best_scored`: fetch `limit * 3` offers, keep the ones
passing the category filter, sort by descending score (stably), truncate
to `limit`. -/
def best_scored (raw : List RawItem) (limit : Nat) : List Offer :=
  let offers := (fetch_top_offers raw (limit * 3)).filter (fun o => passes_category o)
  (sortOffers offers).take limit

/-! ## Concrete sample values used by witnesses and counterexamples. -/

/-- An offer with every field inert. -/
def blankOffer : Offer :=
  { product_id := "", title := "", old_price := 0, price := 0, discount_pct := 0,
    coupon := none, free_shipping := false, sales_count := 0, rating := 0,
    image_url := "", product_url := "", category := "" }

/-- The accepted example of the spec: title "RTX 4060 Placa de Vídeo" in
category "placas de video". -/
def offerRTX : Offer :=
  { blankOffer with
    product_id := "rtx1"
    title := "RTX 4060 Placa de Vídeo"
    category := "placas de video" }

/-- The rejected example of the spec: title "Camiseta Unissex" in category
"roupas". -/
def offerCamiseta : Offer :=
  { blankOffer with
    product_id := "cam1"
    title := "Camiseta Unissex"
    category := "roupas" }

/-- An offer without an image, sendable only as text. -/
def offerNoImage : Offer :=
  { blankOffer with
    product_id := "p1"
    title := "t"
    price := 5
    product_url := "u"
    category := "c" }

/-- A raw catalog record with every key absent. -/
def emptyItem : RawItem := {}

/-- The offer `emptyItem` normalizes to. -/
def emptyItemOffer : Offer :=
  { product_id := "", title := "Produto AliExpress", old_price := 0, price := 0,
    discount_pct := 0, coupon := none, free_shipping := false, sales_count := 0,
    rating := fourPointFive, image_url := "",
    product_url := "https://www.aliexpress.com/item/.html",
    category := "eletronicos" }

/-- A well-formed raw record for the accepted category example. -/
def rtxItem : RawItem :=
  { product_id := .s "r1", product_title := .s "RTX 4060 Placa de Vídeo",
    first_level_category_name := .s "placas de video" }

/-- A raw record whose rating string makes `float()` raise, so the record
is skipped. -/
def badItem : RawItem :=
  { product_id := .s "bad1", evaluate_rate := .s "xx%" }

/-- The offer `rtxItem` normalizes to. -/
def rtxOffer : Offer :=
  { product_id := "r1", title := "RTX 4060 Placa de Vídeo", old_price := 0,
    price := 0, discount_pct := 0, coupon := none, free_shipping := false,
    sales_count := 0, rating := fourPointFive, image_url := "",
    product_url := "https://www.aliexpress.com/item/r1.html",
    category := "placas de video" }

/-- A raw record with a sale price but no original-price key. -/
def priceOnlyItem : RawItem := { target_sale_price := .s "10" }

/-- A one-record ledger: product "p1" posted at time 0. -/
def ledger1 : List PostRecord := [⟨"p1", 0, 5, none⟩]

/-! ## Theorems for the claims. -/

/-- C2: every attempt of an unpaused scheduler in which no offer is posted
increments the consecutive-failure counter by one; when the counter
reaches the fixed threshold 5 the breaker sets the durable `paused` key to
`"1"` and emits one operator notification while the counter keeps its
incremented value (pausing does not reset it); below the threshold nothing
else changes; every attempt in which some offer is posted resets the
counter to 0 and touches neither the pause flag nor the notifications. -/
theorem C2_circuit_breaker (s : SchedState) (h : s.paused ≠ "1") :
    (post_one s false).consecutive_failures = s.consecutive_failures + 1 ∧
    (s.consecutive_failures + 1 = 5 →
      post_one s false = ⟨5, "1", s.notifications + 1⟩) ∧
    (s.consecutive_failures + 1 < 5 →
      post_one s false = ⟨s.consecutive_failures + 1, s.paused, s.notifications⟩) ∧
    (post_one s true).consecutive_failures = 0 ∧
    (post_one s true).paused = s.paused ∧
    (post_one s true).notifications = s.notifications := by
  have hb : (s.paused == "1") = false := beq_eq_false_iff_ne.mpr h
  refine ⟨?_, ?_, ?_, ?_, ?_, ?_⟩ <;>
    simp only [post_one, hb, Bool.false_eq_true, if_false, if_true] <;>
    first
      | (intro h5; simp [show 5 ≤ s.consecutive_failures + 1 by omega]; omega)
      | (intro h5; simp [show ¬ 5 ≤ s.consecutive_failures + 1 by omega])
      | (split <;> simp)

/-- C2 witness: a breaker at four failures fires on the fifth, and a
success resets the counter. -/
theorem C2_circuit_breaker_witness :
    post_one ⟨4, "0", 0⟩ false = ⟨5, "1", 1⟩ ∧
    (post_one ⟨4, "0", 0⟩ true).consecutive_failures = 0 := by
  have h := C2_circuit_breaker ⟨4, "0", 0⟩ (by decide)
  exact ⟨h.2.1 rfl, h.2.2.2.1⟩

/-- C9: the `/retomar` resume handler only writes `paused` back to `"0"`
and keeps the consecutive-failure counter; after the breaker has fired
(counter ≥ 5) and the system is resumed without an intervening success,
the very next no-success attempt pauses again immediately (and notifies);
a successful attempt resets the counter, after which a single failure no
longer pauses. -/
theorem C9_resume_no_counter_reset (s : SchedState)
    (h5 : 5 ≤ s.consecutive_failures) (hp : s.paused = "1") :
    resume s = ⟨s.consecutive_failures, "0", s.notifications⟩ ∧
    post_one (resume s) false = ⟨s.consecutive_failures + 1, "1", s.notifications + 1⟩ ∧
    (post_one (resume s) true).consecutive_failures = 0 ∧
    (post_one (post_one (resume s) true) false).paused = "0" ∧
    (post_one (post_one (resume s) true) false).consecutive_failures = 1 := by
  refine ⟨rfl, ?_, ?_, ?_, ?_⟩ <;>
    simp [post_one, resume, show 5 ≤ s.consecutive_failures + 1 by omega]

/-- C9 witness: a fired breaker (five failures), resumed, re-pauses on the
next failed attempt; one success then shields the next failure. -/
theorem C9_resume_no_counter_reset_witness :
    resume ⟨5, "1", 1⟩ = ⟨5, "0", 1⟩ ∧
    post_one (resume ⟨5, "1", 1⟩) false = ⟨6, "1", 2⟩ ∧
    (post_one (post_one (resume ⟨5, "1", 1⟩) true) false).paused = "0" := by
  have h := C9_resume_no_counter_reset ⟨5, "1", 1⟩ (by decide) rfl
  exact ⟨h.1, h.2.1, h.2.2.2.1⟩

/-- C10 counterexample: hour 7 lies inside the window the `/status` reply
displays (06:00-22:00) but the scheduler's gate rejects it — the enforced
interval is not the displayed one. -/
theorem C10_counterexample :
    statusWindowStartHour = 6 ∧ statusWindowEndHour = 22 ∧
    statusWindowStartHour ≤ 7 ∧ 7 < statusWindowEndHour ∧
    in_window 7 = false := by decide

/-- C10 (amended): the scheduler's gate accepts exactly local hours `h`
with `8 ≤ h < 22`, while the admin status summary displays the window as
06:00-22:00 — a different interval: hours 6 and 7 are inside the displayed
window but rejected by the gate. -/
theorem C10_gate_vs_display :
    (∀ h : Nat, in_window h = true ↔ 8 ≤ h ∧ h < 22) ∧
    statusWindowLine "America/Sao_Paulo" =
      "Janela: 06:00-22:00 America/Sao_Paulo" ∧
    statusWindowStartHour = 6 ∧ statusWindowEndHour = 22 ∧
    in_window 6 = false ∧ in_window 7 = false ∧
    in_window 8 = true ∧ in_window 21 = true ∧ in_window 22 = false := by
  refine ⟨fun h => ?_, rfl, rfl, rfl, rfl, rfl, rfl, rfl, rfl⟩
  simp [in_window]

/-- C7: `record_post` silently ignores an insert whose
`(product_id, posted_at)` pair already has a ledger record, leaving the
ledger unchanged, and applying `record_post` twice with the same arguments
yields the same ledger as applying it once. -/
theorem C7_record_post_idempotent (l : List PostRecord) (pid : String)
    (t : ℤ) (price : ℚ) (coupon : Option String) :
    (l.any (fun r => r.product_id == pid && r.posted_at == t) = true →
      record_post l pid t price coupon = l) ∧
    record_post (record_post l pid t price coupon) pid t price coupon =
      record_post l pid t price coupon := by
  constructor
  · intro h
    simp [record_post, h]
  · by_cases h : l.any (fun r => r.product_id == pid && r.posted_at == t) = true
    · simp [record_post, h]
    · simp only [Bool.not_eq_true] at h
      simp [record_post, h, List.any_append]

/-- C7 witness: re-recording the existing `("p1", 0)` pair leaves the
one-record ledger unchanged, and the double insert of a fresh pair equals
the single insert. -/
theorem C7_record_post_idempotent_witness :
    record_post ledger1 "p1" 0 7 none = ledger1 ∧
    record_post (record_post ledger1 "p2" 3 7 none) "p2" 3 7 none =
      record_post ledger1 "p2" 3 7 none := by
  exact ⟨(C7_record_post_idempotent ledger1 "p1" 0 7 none).1 (by decide),
    (C7_record_post_idempotent ledger1 "p2" 3 7 none).2⟩

/-- C1: if the ledger has a record of `offer.product_id` at time `T` (and
none later), then a `post_offer` call at `T + 47h` returns false with the
ledger unchanged and no delivery attempted, while at `T + 49h` the
duplicate check (`posted_within` at cutoff `now − 48h`) no longer fires,
so the offer is eligible again and a successful photo delivery records
it. -/
theorem C1_dedup_window (ledger : List PostRecord) (offer : Offer) (T : ℤ)
    (se po tOk : Bool)
    (hrec : ledger.any
      (fun r => r.product_id == offer.product_id && r.posted_at == T) = true)
    (hlatest : ledger.all
      (fun r => !(r.product_id == offer.product_id) ||
        decide (r.posted_at ≤ T)) = true) :
    post_offer ledger (T + 47 * 3600) offer se po tOk = ⟨false, ledger, 0, 0⟩ ∧
    posted_within ledger offer.product_id (T + 49 * 3600 - 48 * 3600) = false ∧
    post_offer ledger (T + 49 * 3600) offer true true tOk =
      ⟨true, record_post ledger offer.product_id (T + 49 * 3600)
        offer.price offer.coupon, 1, 0⟩ := by
  have h1 : posted_within ledger offer.product_id
      (T + 47 * 3600 - 48 * 3600) = true := by
    simp only [posted_within, List.any_eq_true, Bool.and_eq_true, beq_iff_eq,
      decide_eq_true_eq] at hrec ⊢
    obtain ⟨r, hr, hpid, hT⟩ := hrec
    exact ⟨r, hr, hpid, by omega⟩
  have h2 : posted_within ledger offer.product_id
      (T + 49 * 3600 - 48 * 3600) = false := by
    simp only [List.all_eq_true, Bool.or_eq_true, Bool.not_eq_eq_eq_not,
      Bool.not_true, beq_eq_false_iff_ne, ne_eq, decide_eq_true_eq] at hlatest
    simp only [posted_within, List.any_eq_false, Bool.and_eq_true, beq_iff_eq,
      decide_eq_true_eq, not_and]
    intro r hr hpid
    rcases hlatest r hr with hne | hle
    · exact absurd hpid hne
    · omega
  refine ⟨?_, h2, ?_⟩
  · simp only [post_offer, h1]
    simp
  · simp only [post_offer, h2]
    simp

/-- C1 witness: with "p1" posted at time 0, a repost attempt at 47 hours
is suppressed without touching the ledger, and the 49-hour cutoff check
comes back empty. -/
theorem C1_dedup_window_witness :
    post_offer ledger1 (0 + 47 * 3600) offerNoImage true true true =
      ⟨false, ledger1, 0, 0⟩ ∧
    posted_within ledger1 offerNoImage.product_id
      (0 + 49 * 3600 - 48 * 3600) = false := by
  have h := C1_dedup_window ledger1 offerNoImage 0 true true true
    (by decide) (by decide)
  exact ⟨h.1, h.2.1⟩

/-- C3 counterexample: with sending enabled and no duplicate, `post_offer`
makes a photo-delivery attempt even though `offer.image_url` is empty —
the claimed "only if `offer.image_url` is non-empty" guard does not exist
in the code. -/
theorem C3_counterexample :
    offerNoImage.image_url = "" ∧
    (post_offer [] 0 offerNoImage true false true).photoAttempts = 1 := by
  decide

/-- C3 (amended): when the offer is not duplicate-suppressed, photo
delivery is attempted whenever delivery is enabled, regardless of whether
`offer.image_url` is empty (an empty image simply fails at the transport);
on photo failure a text-only delivery is attempted as fallback; if both
fail the call returns false and writes nothing to the ledger; and if photo
fails but text succeeds the offer is recorded as posted with exactly one
new ledger record. -/
theorem C3_delivery_fallback (ledger : List PostRecord) (now : ℤ)
    (offer : Offer) (tOk : Bool)
    (hdup : posted_within ledger offer.product_id (now - 48 * 3600) = false) :
    (∀ po : Bool,
      (post_offer ledger now offer true po tOk).photoAttempts = 1) ∧
    (post_offer ledger now offer true false tOk).textAttempts = 1 ∧
    post_offer ledger now offer true false false = ⟨false, ledger, 1, 1⟩ ∧
    (post_offer ledger now offer true false true).ok = true ∧
    (post_offer ledger now offer true false true).ledger =
      ledger ++ [⟨offer.product_id, now, offer.price,
        if pyTruthyStr offer.coupon then offer.coupon else none⟩] := by
  have hnew : ledger.any
      (fun r => r.product_id == offer.product_id && r.posted_at == now) = false := by
    simp only [posted_within, List.any_eq_false, Bool.and_eq_true, beq_iff_eq,
      decide_eq_true_eq, not_and] at hdup ⊢
    intro r hr hpid hT
    exact hdup r hr hpid (by omega)
  refine ⟨?_, ?_, ?_, ?_, ?_⟩
  · intro po
    cases po <;> cases tOk <;> (simp only [post_offer, hdup]; simp)
  · cases tOk <;> (simp only [post_offer, hdup]; simp)
  · simp only [post_offer, hdup]
    simp
  · simp only [post_offer, hdup]
    simp
  · simp only [post_offer, hdup, record_post, hnew]
    simp

/-- C3 witness: on an empty ledger, both deliveries failing returns false
with no write, and the text fallback after a photo failure records exactly
the one new row. -/
theorem C3_delivery_fallback_witness :
    post_offer [] 0 offerNoImage true false false = ⟨false, [], 1, 1⟩ ∧
    (post_offer [] 0 offerNoImage true false true).ledger =
      [⟨"p1", 0, 5, none⟩] := by
  have h := C3_delivery_fallback [] 0 offerNoImage true (by decide)
  exact ⟨h.2.2.1, h.2.2.2.2⟩

/-- C4: an unpaused, in-window planning run schedules exactly the filtered
random times; the clamped bounds satisfy `min ≤ max`; the drawn count `n`
(`random.randint` on the clamped bounds) lies in `[min, max]`; and the
scheduled times are pairwise distinct, all at or after the start of the
current hour, strictly before the next hour, and none before `now`. -/
theorem C4_hour_plan (mn mx n now : Nat) (sample : List Nat)
    (paused : String) (hp : paused ≠ "1")
    (hw : in_window (now_hour now) = true)
    (hn1 : (get_hourly_bounds mn mx).1 ≤ n)
    (hn2 : n ≤ (get_hourly_bounds mn mx).2)
    (hnodup : sample.Nodup)
    (hlt : sample.all (fun s => decide (s < 3600)) = true)
    (hlen : sample.length = min n 3600) :
    plan_next_hour paused now sample =
      some (random_times_within_hour now sample) ∧
    (get_hourly_bounds mn mx).1 ≤ (get_hourly_bounds mn mx).2 ∧
    mn ≤ n ∧ n ≤ max mn mx ∧
    ((random_times_within_hour now sample).all
      (fun t => decide (now - now % 3600 ≤ t) &&
        decide (t < now - now % 3600 + 3600) && decide (now ≤ t)) = true) ∧
    (random_times_within_hour now sample).Nodup := by
  have hb : (paused == "1") = false := beq_eq_false_iff_ne.mpr hp
  refine ⟨by simp [plan_next_hour, hb, hw], ?_, ?_, ?_, ?_, ?_⟩
  · simp only [get_hourly_bounds]
    split <;> simp <;> omega
  · simp only [get_hourly_bounds] at hn1
    split at hn1 <;> simpa using hn1
  · simp only [get_hourly_bounds] at hn2
    split at hn2 <;> simp at hn2 ⊢ <;> omega
  · simp only [random_times_within_hour, List.all_eq_true]
    intro t ht
    obtain ⟨hmem, hcond⟩ := List.mem_filter.mp ht
    obtain ⟨s, _, rfl⟩ := List.mem_map.mp hmem
    simp only [Bool.and_eq_true, decide_eq_true_eq] at hcond ⊢
    exact ⟨⟨Nat.le_add_right _ _, hcond.2⟩, hcond.1⟩
  · apply List.Nodup.filter
    apply List.Nodup.map (fun a b => by omega)
    exact (List.perm_insertionSort _ sample).nodup_iff.mpr hnodup

/-- C4 witness: bounds 20–25, a draw of 22 attempts at the start of hour
8, offsets 0..21. -/
theorem C4_hour_plan_witness :
    plan_next_hour "0" 28800 (List.range 22) =
      some (random_times_within_hour 28800 (List.range 22)) ∧
    ((random_times_within_hour 28800 (List.range 22)).all
      (fun t => decide (28800 - 28800 % 3600 ≤ t) &&
        decide (t < 28800 - 28800 % 3600 + 3600) && decide (28800 ≤ t)) = true) ∧
    (random_times_within_hour 28800 (List.range 22)).Nodup := by
  have h := C4_hour_plan 20 25 22 28800 (List.range 22) "0" (by decide)
    (by decide) (by decide) (by decide) (by decide) (by decide) (by decide)
  exact ⟨h.1, h.2.2.2.2.1, h.2.2.2.2.2⟩

/-- Inserting into a list keeps the sequence of elements of any fixed
score intact: the inserted offer jumps only over strictly higher-scored
offers. -/
theorem filter_orderedInsert_score (c : ℚ) (a : Offer) (l : List Offer) :
    (List.orderedInsert scoreRel a l).filter (fun o => decide (score o = c)) =
      if score a = c then a :: l.filter (fun o => decide (score o = c))
      else l.filter (fun o => decide (score o = c)) := by
  induction l with
  | nil =>
    by_cases ha : score a = c <;> simp [List.orderedInsert, ha]
  | cons b t ih =>
    simp only [List.orderedInsert]
    by_cases hab : scoreRel a b
    · rw [if_pos hab]
      by_cases ha : score a = c <;> simp [List.filter_cons, ha]
    · rw [if_neg hab]
      have hlt : score a < score b := lt_of_not_ge hab
      by_cases ha : score a = c
      · have hb : ¬(score b = c) := by
          intro hbc
          rw [ha] at hlt
          rw [hbc] at hlt
          exact lt_irrefl c hlt
        simp [List.filter_cons, hb, ih, ha]
      · by_cases hb : score b = c <;> simp [List.filter_cons, hb, ih, ha]

/-- Stability of the descending sort: for every score value `c`, the
subsequence of offers scored `c` is the same before and after sorting. -/
theorem filter_sortOffers (c : ℚ) (l : List Offer) :
    (sortOffers l).filter (fun o => decide (score o = c)) =
      l.filter (fun o => decide (score o = c)) := by
  induction l with
  | nil => rfl
  | cons a t ih =>
    simp only [sortOffers, List.insertionSort] at ih ⊢
    rw [filter_orderedInsert_score]
    by_cases ha : score a = c
    · rw [if_pos ha]
      simp [List.filter_cons, ha, ih]
    · rw [if_neg ha]
      simp [List.filter_cons, ha, ih]

/-- C5: the ranker's score equals
`2·discount_pct + (20 if coupon truthy) + (10 if free_shipping) +
min(sales_count/50, 20) + rating` (a pure function of the offer, hence
deterministic); sorting is by descending score; the sort is stable (for
every score value the offers carrying it keep their source order); and the
ranked output of `best_scored` is descending as well. -/
theorem C5_score_and_stable_sort :
    (∀ o : Offer, score o =
      2 * o.discount_pct + (if pyTruthyStr o.coupon then (20 : ℚ) else 0) +
        (if o.free_shipping then (10 : ℚ) else 0) +
        min ((o.sales_count : ℚ) / 50) 20 + o.rating) ∧
    (∀ l : List Offer, (sortOffers l).Pairwise (fun a b => score b ≤ score a)) ∧
    (∀ (l : List Offer) (c : ℚ),
      (sortOffers l).filter (fun o => decide (score o = c)) =
        l.filter (fun o => decide (score o = c))) ∧
    (∀ (raw : List RawItem) (limit : Nat),
      (best_scored raw limit).Pairwise (fun a b => score b ≤ score a)) := by
  refine ⟨?_, ?_, fun l c => filter_sortOffers c l, ?_⟩
  · intro o
    simp only [score]
    cases hc : pyTruthyStr o.coupon <;> cases hf : o.free_shipping <;>
      simp [hc, hf] <;> ring
  · intro l
    exact List.sorted_insertionSort scoreRel l
  · intro raw limit
    simp only [best_scored]
    exact List.Pairwise.sublist (List.take_sublist _ _)
      (List.sorted_insertionSort scoreRel _)

/-- C6: an offer passes the category filter iff the lowercased
concatenation of its title and category contains at least one term of the
fixed allow-list; the "RTX 4060 Placa de Vídeo"/"placas de video" example
passes; the "Camiseta Unissex"/"roupas" example is rejected; and every
offer ranked by `best_scored` passed the filter (rejected offers are
dropped before scoring). -/
theorem C6_category_filter :
    (∀ o : Offer, passes_category o = true ↔
      ∃ cat ∈ ACCEPTED_CATEGORIES,
        containsSub (pyLower (o.title ++ " " ++ o.category)) cat = true) ∧
    passes_category offerRTX = true ∧
    passes_category offerCamiseta = false ∧
    (∀ (raw : List RawItem) (limit : Nat) (o : Offer),
      o ∈ best_scored raw limit → passes_category o = true) := by
  refine ⟨?_, by decide, by decide, ?_⟩
  · intro o
    simp [passes_category, List.any_eq_true]
  · intro raw limit o ho
    simp only [best_scored, sortOffers] at ho
    have h1 := List.mem_of_mem_take ho
    have h2 := (List.mem_insertionSort scoreRel).mp h1
    exact (List.mem_filter.mp h2).2

/-- C6 witness: the normalization of the RTX sample record survives
ranking, and the filter indeed accepts it. -/
theorem C6_category_filter_witness :
    rtxOffer ∈ best_scored [rtxItem] 1 ∧ passes_category rtxOffer = true := by
  have hm : rtxOffer ∈ best_scored [rtxItem] 1 := by decide
  exact ⟨hm, C6_category_filter.2.2.2 [rtxItem] 1 rtxOffer hm⟩

theorem normalizeItem_eq (it : RawItem) (o : Offer)
    (ho : normalizeItem it = some o) :
    o.product_id = normProductId it ∧ o.title = normTitle it ∧
    normPrice it = some o.price ∧ normOldPrice it = some o.old_price ∧
    normSales it = some o.sales_count ∧ normRating it = some o.rating ∧
    o.category = normCategory it ∧ normImage it = some o.image_url ∧
    o.coupon = normCoupon it ∧ o.free_shipping = normFreeShipping it ∧
    o.product_url = normUrl it ∧
    o.discount_pct = normDiscount o.price o.old_price := by
  simp only [normalizeItem, bind, Option.bind_eq_some, Option.pure_def,
    Option.some.injEq] at ho
  obtain ⟨img, himg, price, hprice, old, hold, sales, hsales, rating, hrat, heq⟩ := ho
  subst heq
  exact ⟨rfl, rfl, hprice, hold, hsales, hrat, rfl, himg, rfl, rfl, rfl, rfl⟩

end SJBot
namespace SJBot

theorem listReplace_single (c d : Char) :
    ∀ (fuel : Nat) (s : List Char), s.length ≤ fuel →
      listReplaceAux [c] [d] fuel s = s.map (fun x => if x = c then d else x)
  | 0, s, h => by
    have : s = [] := List.length_eq_zero.mp (Nat.le_zero.mp h)
    subst this
    rfl
  | fuel + 1, [], _ => rfl
  | fuel + 1, x :: rest, h => by
    simp only [listReplaceAux, List.isPrefixOf, List.isEmpty, Bool.and_true,
      Bool.not_false, List.map]
    by_cases hx : c = x
    · subst hx
      simp only [beq_self_eq_true, Bool.true_and, if_true, List.length_cons,
        List.singleton_append, List.length_nil, Nat.zero_add, Nat.sub_self,
        List.drop_zero] at h ⊢
      rw [listReplace_single c d fuel rest (by omega)]
    · have hb : (c == x) = false := beq_eq_false_iff_ne.mpr hx
      simp only [hb, Bool.false_and, Bool.false_eq_true, if_false] at h ⊢
      rw [if_neg (fun hxc => hx hxc.symm)]
      simp only [List.length_cons] at h
      rw [listReplace_single c d fuel rest (by omega)]

theorem commaDot_idem (s : String) :
    pyReplace (pyReplace s "," ".") "," "." = pyReplace s "," "." := by
  have hf : ∀ x : Char, (if (if x = ',' then '.' else x) = ',' then '.'
      else (if x = ',' then '.' else x)) = (if x = ',' then '.' else x) := by
    intro x
    by_cases hx : x = ',' <;> simp [hx]
  simp only [pyReplace]
  rw [listReplace_single _ _ _ _ (le_refl _), listReplace_single _ _ _ _ (le_refl _)]
  simp only [List.map_map]
  congr 1
  exact List.map_congr_left (fun x _ => hf x)


theorem dedupByPid_spec (l : List RawItem) : ∀ (seen : List String),
    ((dedupByPid seen l).map rawKey).Nodup ∧
    ∀ it ∈ dedupByPid seen l, rawKey it ≠ "" ∧ rawKey it ∉ seen := by
  induction l with
  | nil =>
    intro seen
    simp [dedupByPid]
  | cons it rest ih =>
    intro seen
    simp only [dedupByPid]
    by_cases hc : (!(rawKey it == "") && !(List.contains seen (rawKey it))) = true
    · rw [if_pos hc]
      simp only [Bool.and_eq_true, Bool.not_eq_true', beq_eq_false_iff_ne,
        ne_eq] at hc
      obtain ⟨hne, hns⟩ := hc
      have hnotin : rawKey it ∉ seen := by
        intro hmem
        rw [List.contains_eq_any_beq] at hns
        simp [List.any_eq_true] at hns
        exact hns _ hmem rfl
      constructor
      · simp only [List.map_cons, List.nodup_cons]
        refine ⟨?_, (ih (rawKey it :: seen)).1⟩
        intro hmem
        obtain ⟨it2, hit2, hkey⟩ := List.mem_map.mp hmem
        have h2 := (ih (rawKey it :: seen)).2 it2 hit2
        exact h2.2 (by rw [hkey]; exact List.mem_cons_self _ _)
      · intro x hx
        rcases List.mem_cons.mp hx with rfl | hx2
        · exact ⟨hne, hnotin⟩
        · have h2 := (ih (rawKey it :: seen)).2 x hx2
          exact ⟨h2.1, fun hmem => h2.2 (List.mem_cons_of_mem _ hmem)⟩
    · rw [if_neg hc]
      exact ih seen

theorem jOr_pos {a b : JVal} (h : a.falsy = true) : jOr a b = b := by
  simp [jOr, h]

theorem jOr_neg {a b : JVal} (h : a.falsy = false) : jOr a b = a := by
  simp [jOr, h]

theorem rawKey_pid (it : RawItem) (h : rawKey it ≠ "") (o : Offer)
    (ho : normalizeItem it = some o) : o.product_id = rawKey it := by
  rw [(normalizeItem_eq it o ho).1]
  by_cases hA : (jOr it.product_id it.item_id).falsy = true
  · refine absurd ?_ h
    simp only [rawKey]
    rw [jOr_pos hA]
    rfl
  · simp only [Bool.not_eq_true] at hA
    simp only [normProductId, rawKey]
    rw [jOr_neg hA, jOr_neg hA]

theorem pids_sub (l : List RawItem) (h : ∀ it ∈ l, rawKey it ≠ "") :
    ∀ p ∈ (l.filterMap normalizeItem).map Offer.product_id,
      p ∈ l.map rawKey := by
  induction l with
  | nil => simp
  | cons it rest ih =>
    intro p hp
    rw [List.filterMap_cons] at hp
    cases hno : normalizeItem it with
    | none =>
      rw [hno] at hp
      exact List.mem_cons_of_mem _
        (ih (fun x hx => h x (List.mem_cons_of_mem _ hx)) p hp)
    | some o =>
      rw [hno] at hp
      rcases List.mem_cons.mp hp with rfl | hp2
      · rw [rawKey_pid it (h it (List.mem_cons_self _ _)) o hno]
        exact List.mem_cons_self _ _
      · exact List.mem_cons_of_mem _
          (ih (fun x hx => h x (List.mem_cons_of_mem _ hx)) p hp2)

theorem pids_nodup (l : List RawItem) (h : ∀ it ∈ l, rawKey it ≠ "")
    (hn : (l.map rawKey).Nodup) :
    ((l.filterMap normalizeItem).map Offer.product_id).Nodup := by
  induction l with
  | nil => simp
  | cons it rest ih =>
    rw [List.filterMap_cons]
    simp only [List.map_cons, List.nodup_cons] at hn
    cases hno : normalizeItem it with
    | none => exact ih (fun x hx => h x (List.mem_cons_of_mem _ hx)) hn.2
    | some o =>
      simp only [List.map_cons, List.nodup_cons]
      refine ⟨?_, ih (fun x hx => h x (List.mem_cons_of_mem _ hx)) hn.2⟩
      rw [rawKey_pid it (h it (List.mem_cons_self _ _)) o hno]
      intro hmem
      exact hn.1 (pids_sub rest (fun x hx => h x (List.mem_cons_of_mem _ hx)) _ hmem)

theorem fetch_pids_nodup (raw : List RawItem) (limit : Nat) :
    ((fetch_top_offers raw limit).map Offer.product_id).Nodup := by
  simp only [fetch_top_offers, api_product_query]
  rw [List.map_take]
  apply List.Nodup.sublist (List.take_sublist _ _)
  apply pids_nodup
  · intro it hit
    exact ((dedupByPid_spec raw []).2 it (List.mem_of_mem_take hit)).1
  · rw [List.map_take]
    exact List.Nodup.sublist (List.take_sublist _ _) (dedupByPid_spec raw []).1


theorem fourPointFive_eq : fourPointFive = 9 / 2 := by
  rw [fourPointFive, Rat.mk'_eq_divInt, Rat.divInt_eq_div]
  norm_num

/-- C8 (amended): in the defensive normalization, a missing price and a
missing sales count default to 0, a missing rating defaults to 4.5, a
missing original price defaults to the (already parsed) price, missing
text fields default to generic labels ("Produto AliExpress",
"eletronicos"), a record whose parsing raises is skipped without failing
the batch, and the batch is de-duplicated by `product_id` before being
capped to the requested size (the product ids of `fetch_top_offers` are
pairwise distinct). -/
theorem C8_defensive_normalization (it : RawItem) (o : Offer)
    (ho : normalizeItem it = some o) :
    (it.target_sale_price = .null → it.sale_price = .null →
      it.app_sale_price = .null → o.price = 0) ∧
    (it.product_sale_quantity = .null → it.sale_count = .null →
      o.sales_count = 0) ∧
    (it.evaluate_rate = .null → it.product_average_star = .null →
      o.rating = 9 / 2) ∧
    (it.target_original_price = .null → it.original_price = .null →
      it.app_original_price = .null → o.old_price = o.price) ∧
    (it.product_title = .null → it.title = .null →
      o.title = "Produto AliExpress") ∧
    (it.first_level_category_name = .null → it.category_name = .null →
      o.category = "eletronicos") ∧
    (∀ (bad : RawItem) (pre post : List RawItem), normalizeItem bad = none →
      List.filterMap normalizeItem (pre ++ bad :: post) =
        List.filterMap normalizeItem (pre ++ post)) ∧
    (∀ (raw : List RawItem) (limit : Nat),
      ((fetch_top_offers raw limit).map Offer.product_id).Nodup) := by
  obtain ⟨hpid, htitle, hprice, hold, hsales, hrat, hcat, himg, hcoup, hfs,
    hurl, hdisc⟩ := normalizeItem_eq it o ho
  refine ⟨?_, ?_, ?_, ?_, ?_, ?_, ?_, fetch_pids_nodup⟩
  · intro h1 h2 h3
    have hz : normPrice it = some 0 := by
      simp only [normPrice, normPriceStr, h1, h2, h3]
      decide
    rw [hz] at hprice
    exact (Option.some_inj.mp hprice).symm
  · intro h1 h2
    have hz : normSales it = some 0 := by
      simp only [normSales, h1, h2]
      decide
    rw [hz] at hsales
    exact (Option.some_inj.mp hsales).symm
  · intro h1 h2
    have hz : normRating it = some fourPointFive := by
      simp only [normRating, h1, h2]
      rfl
    rw [hz] at hrat
    rw [← Option.some_inj.mp hrat, fourPointFive_eq]
  · intro h1 h2 h3
    have hos : normOldStr it = normPriceStr it := by
      have hstep : normOldStr it = pyReplace (normPriceStr it) "," "." := by
        simp only [normOldStr, h1, h2, h3]
        rfl
      rw [hstep]
      simp only [normPriceStr]
      exact commaDot_idem _
    have hsame : normOldPrice it = normPrice it := by
      simp only [normOldPrice, hos]
      by_cases hc : (!(normPriceStr it == "")) = true
      · rw [if_pos hc]
        simp only [normPrice]
        rw [if_pos hc]
      · rw [if_neg hc]
    rw [hsame, hprice] at hold
    exact Option.some_inj.mp hold.symm
  · intro h1 h2
    rw [htitle]
    simp only [normTitle, h1, h2]
    rfl
  · intro h1 h2
    rw [hcat]
    simp only [normCategory, h1, h2]
    rfl
  · intro bad pre post hbad
    simp [List.filterMap_append, List.filterMap_cons, hbad]


/-- C8 counterexample: a raw record with every key missing normalizes
with rating 4.5, not 0; and a record with a sale price but no
original-price key normalizes with `old_price` equal to the price (10),
not 0 — so "every missing numeric field defaults to 0" is false. -/
theorem C8_counterexample :
    normalizeItem emptyItem = some emptyItemOffer ∧
    emptyItemOffer.rating = 9 / 2 ∧ (9 : ℚ) / 2 ≠ 0 ∧
    (normalizeItem priceOnlyItem).map Offer.price = some 10 ∧
    (normalizeItem priceOnlyItem).map Offer.old_price = some 10 := by
  refine ⟨by decide, fourPointFive_eq, by norm_num, by decide, by decide⟩

/-- C8 witness: the all-keys-missing record normalizes to the default
offer. -/
theorem C8_witness :
    normalizeItem emptyItem = some emptyItemOffer ∧
    emptyItemOffer.price = 0 ∧ emptyItemOffer.sales_count = 0 ∧
    emptyItemOffer.rating = 9 / 2 ∧
    emptyItemOffer.old_price = emptyItemOffer.price ∧
    emptyItemOffer.title = "Produto AliExpress" ∧
    emptyItemOffer.category = "eletronicos" := by
  have hho : normalizeItem emptyItem = some emptyItemOffer := by decide
  have h := C8_defensive_normalization emptyItem emptyItemOffer hho
  exact ⟨hho, h.1 rfl rfl rfl, h.2.1 rfl rfl, h.2.2.1 rfl rfl,
    h.2.2.2.1 rfl rfl rfl, h.2.2.2.2.1 rfl rfl, h.2.2.2.2.2.1 rfl rfl⟩


end SJBot
